import Mathlib

set_option maxRecDepth 10000

/-!
Verification of the graph-description emitter in
`src/settings/EvalIFG/haystack_gen.py`.

The script prints a fixed header block describing the nodes `start`, `B`,
`finish` and their edges, followed by one three-line block per distractor
node `N1 .. Nk`.  Numeric parameters only ever reach the output through
Python's `str(...)` conversion, so the embedding takes the rendered strings
`other_path_fitness` and `path_length` as parameters; the loop bound
`num_other_paths` is an integer (`range n` iterates `max n 0` times, which
`Int.toNat` models exactly).  The reference defaults in the script are
`num_other_paths = 99`, `other_path_fitness = 0.1` (rendered `"0.1"`) and
`path_length = 7` (rendered `"7"`).
-/

/-- The eight header lines printed before the loop
(`print` statements on lines 5-12 of `haystack_gen.py`);
`""` is the output of `print('')`. -/
def headerLines (path_length : String) : List String :=
  ["add, start, 1",
   "",
   "add, B, 9",
   "connect, start, B, " ++ path_length,
   "",
   "add, finish, 10 ",
   "connect, B, finish, 0",
   ""]

/-- `node_name = 'N' + str(i + 1)` for loop index `i` (line 15). -/
def nodeName (i : Nat) : String := "N" ++ Nat.repr (i + 1)

/-- The three lines printed by one iteration of the `for` loop
(lines 16-18 of `haystack_gen.py`). -/
def distractorLines (other_path_fitness path_length : String) (i : Nat) : List String :=
  ["add, " ++ nodeName i ++ ", " ++ other_path_fitness,
   "connect, start, " ++ nodeName i ++ ", " ++ path_length,
   "connect, " ++ nodeName i ++ ", finish, 0"]

/-- The complete output of `haystack_gen.py` as a list of lines:
the header followed by `for i in range(num_other_paths)` distractor blocks. -/
def emit (num_other_paths : Int) (other_path_fitness path_length : String) : List String :=
  headerLines path_length ++
    (List.range num_other_paths.toNat).flatMap
      (distractorLines other_path_fitness path_length)

/-- The output as described by the specification's wording for claim C1:
the eight literal header lines, then for `i` from `1` to `k` (1-indexed
names `N1 .. Nk`) the three distractor lines.  This definition follows the
claim's text; the refinement theorem compares it with `emit`, which is
transliterated from the source. -/
def emitSpecLines (k : Nat) (opf pl : String) : List String :=
  ["add, start, 1",
   "",
   "add, B, 9",
   "connect, start, B, " ++ pl,
   "",
   "add, finish, 10 ",
   "connect, B, finish, 0",
   ""] ++
  (List.range' 1 k).flatMap (fun i =>
    ["add, N" ++ Nat.repr i ++ ", " ++ opf,
     "connect, start, N" ++ Nat.repr i ++ ", " ++ pl,
     "connect, N" ++ Nat.repr i ++ ", finish, 0"])

/-- A line is an `add` directive when it begins with the field tag `add, `. -/
def lineIsAdd (l : String) : Bool := l.data.take 5 = ("add, ").data

/-- A line is a `connect` directive when it begins with the field tag
`connect, `. -/
def lineIsConnect (l : String) : Bool := l.data.take 9 = ("connect, ").data

/-- The output viewed as structured directives: a node declaration, an edge
declaration, or a blank separator line. -/
inductive Directive where
  | add (name fitness : String)
  | connect (src dst weight : String)
  | blank

/-- Rendering a structured directive back into the literal text line the
script prints for it. -/
def renderDirective : Directive → String
  | .add n f => "add, " ++ n ++ ", " ++ f
  | .connect a b w => "connect, " ++ a ++ ", " ++ b ++ ", " ++ w
  | .blank => ""

/-- The header block of the script as structured directives. -/
def headerD (pl : String) : List Directive :=
  [.add "start" "1", .blank, .add "B" "9", .connect "start" "B" pl, .blank,
   .add "finish" "10 ", .connect "B" "finish" "0", .blank]

/-- One loop iteration of the script as structured directives. -/
def distractorD (opf pl : String) (i : Nat) : List Directive :=
  [.add (nodeName i) opf, .connect "start" (nodeName i) pl,
   .connect (nodeName i) "finish" "0"]

/-- The whole output as structured directives. -/
def emitD (k : Int) (opf pl : String) : List Directive :=
  headerD pl ++ (List.range k.toNat).flatMap (distractorD opf pl)

/-- The node name declared by an `add` directive, if any. -/
def addName? : Directive → Option String
  | .add n _ => some n
  | _ => none

/-- The node names that must appear in `add` lines for distractor count `k`:
the three reserved names followed by `N1 .. Nk`. -/
def addNames (k : Nat) : List String :=
  ["start", "B", "finish"] ++ (List.range k).map nodeName

/-- Given the set `ds` of node names declared so far, check that every
`connect` directive in the list only references names already declared by an
earlier `add` directive. -/
def declCheck : List String → List Directive → Bool
  | _, [] => true
  | ds, Directive.add n _ :: rest => declCheck (n :: ds) rest
  | ds, Directive.connect a b _ :: rest =>
      decide (a ∈ ds) && decide (b ∈ ds) && declCheck ds rest
  | ds, Directive.blank :: rest => declCheck ds rest

/-- Numeric value of a decimal digit character. -/
def digitVal (c : Char) : Nat := c.toNat - 48

/-- Folding the decimal digits of `n` (most significant first) onto an
accumulator `a`; used to decode `Nat.repr`. -/
def pushDigits (a n : Nat) : Nat :=
  if n < 10 then 10 * a + n
  else 10 * pushDigits a (n / 10) + n % 10
decreasing_by exact Nat.div_lt_self (by omega) (by omega)

theorem digitVal_digitChar (d : Nat) (h : d < 10) : digitVal (Nat.digitChar d) = d := by
  interval_cases d <;> decide

theorem foldl_toDigitsCore (f : Nat) :
    ∀ (n : Nat) (l : List Char) (a : Nat), n < f →
      List.foldl (fun a c => 10 * a + digitVal c) a (Nat.toDigitsCore 10 f n l)
        = List.foldl (fun a c => 10 * a + digitVal c) (pushDigits a n) l := by
  induction f with
  | zero => intro n l a h; omega
  | succ f ih =>
    intro n l a h
    rw [Nat.toDigitsCore]
    by_cases h10 : n / 10 = 0
    · have hn : n < 10 := by omega
      simp only [h10, if_pos]
      rw [List.foldl_cons]
      rw [digitVal_digitChar (n % 10) (by omega)]
      rw [pushDigits]
      simp [hn, Nat.mod_eq_of_lt hn]
    · have hn : ¬ n < 10 := by omega
      simp only [h10, if_neg, ite_false]
      rw [ih (n / 10) _ a (by omega)]
      rw [List.foldl_cons]
      rw [digitVal_digitChar (n % 10) (by omega)]
      conv_rhs => rw [pushDigits]
      simp [hn]

theorem pushDigits_zero (n : Nat) : pushDigits 0 n = n := by
  induction n using Nat.strong_induction_on with
  | _ n ih =>
    rw [pushDigits]
    by_cases h : n < 10
    · simp [h]
    · rw [if_neg h, ih (n / 10) (Nat.div_lt_self (by omega) (by omega))]
      omega

theorem decode_toDigits (n : Nat) :
    List.foldl (fun a c => 10 * a + digitVal c) 0 (Nat.toDigits 10 n) = n := by
  rw [Nat.toDigits, foldl_toDigitsCore (n + 1) n [] 0 (Nat.lt_succ_self n)]
  exact pushDigits_zero n

theorem Nat_repr_injective {m n : Nat} (h : Nat.repr m = Nat.repr n) : m = n := by
  have hd : Nat.toDigits 10 m = Nat.toDigits 10 n := by
    have := congrArg String.data h
    simpa [Nat.repr, List.asString] using this
  have := congrArg (List.foldl (fun a c => 10 * a + digitVal c) 0) hd
  rwa [decode_toDigits, decode_toDigits] at this

theorem nodeName_injective {i j : Nat} (h : nodeName i = nodeName j) : i = j := by
  have hd := congrArg String.data h
  simp only [nodeName, String.data_append] at hd
  have : Nat.repr (i + 1) = Nat.repr (j + 1) := by
    apply String.ext
    exact List.append_cancel_left hd
  have := Nat_repr_injective this
  omega

theorem nodeName_ne_start (i : Nat) : nodeName i ≠ "start" := by
  intro h
  have hd := congrArg String.data h
  simp only [nodeName, String.data_append] at hd
  exact absurd (List.head_eq_of_cons_eq hd) (by decide)

theorem nodeName_ne_B (i : Nat) : nodeName i ≠ "B" := by
  intro h
  have hd := congrArg String.data h
  simp only [nodeName, String.data_append] at hd
  exact absurd (List.head_eq_of_cons_eq hd) (by decide)

theorem nodeName_ne_finish (i : Nat) : nodeName i ≠ "finish" := by
  intro h
  have hd := congrArg String.data h
  simp only [nodeName, String.data_append] at hd
  exact absurd (List.head_eq_of_cons_eq hd) (by decide)

theorem addNames_nodup (k : Nat) : (addNames k).Nodup := by
  have hmap : ((List.range k).map nodeName).Nodup :=
    List.Nodup.map (fun a b h => nodeName_injective h) (List.nodup_range k)
  refine List.Nodup.append (by decide) hmap ?_
  intro a ha hb
  obtain ⟨i, _, rfl⟩ := List.mem_map.mp hb
  simp only [List.mem_cons, List.mem_singleton, List.not_mem_nil] at ha
  rcases ha with h | h | h | h
  · exact nodeName_ne_start i h
  · exact nodeName_ne_B i h
  · exact nodeName_ne_finish i h
  · exact h

theorem map_render_distractorD (opf pl : String) (i : Nat) :
    (distractorD opf pl i).map renderDirective = distractorLines opf pl i := by
  have h3 : "connect, " ++ nodeName i ++ ", " ++ "finish" ++ ", " ++ "0"
      = "connect, " ++ nodeName i ++ ", finish, 0" := by
    rw [String.append_assoc, String.append_assoc, String.append_assoc]
    rfl
  simp only [distractorD, distractorLines, List.map_cons, List.map_nil, renderDirective]
  rw [h3]
  rfl

theorem map_render_flatMap (opf pl : String) (l : List Nat) :
    (l.flatMap (distractorD opf pl)).map renderDirective
      = l.flatMap (distractorLines opf pl) := by
  induction l with
  | nil => rfl
  | cons i l ih =>
    simp only [List.flatMap_cons, List.map_append, ih, map_render_distractorD]

theorem emit_eq_renderD (k : Int) (opf pl : String) :
    emit k opf pl = (emitD k opf pl).map renderDirective := by
  simp only [emit, emitD, List.map_append, map_render_flatMap]
  rfl

theorem filterMap_addName_distractors (opf pl : String) (l : List Nat) :
    (l.flatMap (distractorD opf pl)).filterMap addName? = l.map nodeName := by
  induction l with
  | nil => rfl
  | cons i l ih =>
    simp only [List.flatMap_cons, List.filterMap_append, ih, List.map_cons]
    rfl

theorem filterMap_addName_emitD (k : Int) (opf pl : String) :
    (emitD k opf pl).filterMap addName? = addNames k.toNat := by
  simp only [emitD, List.filterMap_append, filterMap_addName_distractors, addNames]
  rfl

theorem declCheck_distractors (opf pl : String) (l : List Nat) : ∀ (ds : List String),
    "start" ∈ ds → "finish" ∈ ds →
    declCheck ds (l.flatMap (distractorD opf pl)) = true := by
  induction l with
  | nil => intro ds _ _; rfl
  | cons i l ih =>
    intro ds hs hf
    simp only [List.flatMap_cons, distractorD, List.cons_append, List.nil_append, declCheck]
    have h1 : decide ("start" ∈ nodeName i :: ds) = true := by
      simp [List.mem_cons_of_mem _ hs]
    have h2 : decide (nodeName i ∈ nodeName i :: ds) = true := by simp
    have h3 : decide ("finish" ∈ nodeName i :: ds) = true := by
      simp [List.mem_cons_of_mem _ hf]
    rw [h1, h2, h3]
    simp only [Bool.true_and]
    have := ih (nodeName i :: ds) (List.mem_cons_of_mem _ hs) (List.mem_cons_of_mem _ hf)
    simpa [List.flatMap] using this

theorem declCheck_emitD (k : Int) (opf pl : String) :
    declCheck [] (emitD k opf pl) = true := by
  simp only [emitD, headerD, List.cons_append, List.nil_append, declCheck]
  have h := declCheck_distractors opf pl (List.range k.toNat)
      ["finish", "B", "start"] (by simp) (by simp)
  simpa [List.flatMap] using h

theorem distractorLines_as_spec (opf pl : String) (i : Nat) :
    distractorLines opf pl i
      = ["add, N" ++ Nat.repr (i + 1) ++ ", " ++ opf,
         "connect, start, N" ++ Nat.repr (i + 1) ++ ", " ++ pl,
         "connect, N" ++ Nat.repr (i + 1) ++ ", finish, 0"] := by
  simp only [distractorLines, nodeName]
  rw [← String.append_assoc "add, " "N" (Nat.repr (i + 1)),
      ← String.append_assoc "connect, start, " "N" (Nat.repr (i + 1)),
      ← String.append_assoc "connect, " "N" (Nat.repr (i + 1))]
  rfl

theorem flatMap_distractor_spec (opf pl : String) (l : List Nat) :
    l.flatMap (distractorLines opf pl)
      = l.flatMap (fun i =>
          ["add, N" ++ Nat.repr (1 + i) ++ ", " ++ opf,
           "connect, start, N" ++ Nat.repr (1 + i) ++ ", " ++ pl,
           "connect, N" ++ Nat.repr (1 + i) ++ ", finish, 0"]) := by
  induction l with
  | nil => rfl
  | cons i l ih =>
    simp only [List.flatMap_cons, ih, distractorLines_as_spec, Nat.add_comm 1]

theorem emit_matches_spec (k : Nat) (opf pl : String) :
    emit (k : Int) opf pl = emitSpecLines k opf pl := by
  simp only [emit, emitSpecLines, Int.toNat_natCast, List.range'_eq_map_range,
    List.flatMap_map]
  rw [flatMap_distractor_spec]
  rfl

theorem emit_length (k : Int) (opf pl : String) :
    (emit k opf pl).length = 8 + 3 * k.toNat := by
  simp only [emit, List.length_append, List.length_flatMap]
  have h : ∀ l : List Nat,
      (List.map (List.length ∘ distractorLines opf pl) l).sum = 3 * l.length := by
    intro l; induction l with
    | nil => rfl
    | cons i l ih =>
      simp only [List.map_cons, List.sum_cons, ih, List.length_cons]
      simp [distractorLines]; ring
  rw [h]
  simp [headerLines]

theorem emit_prefix (k : Nat) (opf pl : String) :
    emit (k : Int) opf pl <+: emit ((k : Int) + 1) opf pl := by
  have h1 : ((k : Int) + 1).toNat = k + 1 := by omega
  simp only [emit, Int.toNat_natCast, h1, List.range_succ, List.flatMap_append]
  rw [← List.append_assoc]
  exact List.prefix_append _ _

/-- C1: for every `num_other_paths = k ≥ 0` the emitted output is exactly,
in order, the eight header lines (with the literal trailing space in
`add, finish, 10 `) followed, for `i` from `1` to `k` with 1-indexed names
`N1 .. Nk`, by the three distractor lines, with no blank lines inside the
distractor block; `emitSpecLines` is the line sequence exactly as the claim
words it. -/
theorem C1_output_exact (k : Nat) (opf pl : String) :
    emit (k : Int) opf pl = emitSpecLines k opf pl :=
  emit_matches_spec k opf pl

/-- C2 counterexample: at the reference defaults
(`num_other_paths = 99`, `other_path_fitness = 0.1`, `path_length = 7`) the
output does not contain 201 non-blank lines and does not contain 101
`connect` lines, contrary to the claim. -/
theorem C2_counterexample :
    (emit 99 "0.1" "7").countP (fun l => decide (l ≠ "")) ≠ 201 ∧
    (emit 99 "0.1" "7").countP lineIsConnect ≠ 101 := by
  constructor <;> decide

/-- C2 (amended): at the reference defaults the output contains exactly
`5 + 3*99 = 302` lines excluding the 3 blank lines, consisting of
`3 + 99 = 102` `add` lines and `2 + 2*99 = 200` `connect` lines, the first
eight lines are the fixed header block in order, and the `finish` fitness
field is literally `10 ` with a trailing space. -/
theorem C2_amended_counts :
    (emit 99 "0.1" "7").countP (fun l => decide (l ≠ "")) = 302 ∧
    (emit 99 "0.1" "7").countP (fun l => decide (l = "")) = 3 ∧
    (emit 99 "0.1" "7").countP lineIsAdd = 102 ∧
    (emit 99 "0.1" "7").countP lineIsConnect = 200 ∧
    (emit 99 "0.1" "7").take 8 = headerLines "7" ∧
    (emit 99 "0.1" "7").get? 5 = some "add, finish, 10 " := by
  refine ⟨?_, ?_, ?_, ?_, ?_, ?_⟩ <;> decide

/-- C3 counterexample: for `num_other_paths = 0` the header-only output has
neither 7 non-blank lines nor 7 lines in total (it has 5 non-blank lines,
8 lines in total), so the claim's description of the header block as
`7-line/3-blank-line` is false under either reading of `7-line`. -/
theorem C3_counterexample :
    (emit 0 "0.1" "7").countP (fun l => decide (l ≠ "")) ≠ 7 ∧
    (emit 0 "0.1" "7").length ≠ 7 := by
  constructor <;> decide

/-- C3 (amended): for `num_other_paths = 0` the output is exactly the fixed
header block (the start/B/finish section) of 8 lines — 5 content lines and
3 blank lines — with no distractor lines following it. -/
theorem C3_header_only (opf pl : String) :
    emit 0 opf pl = headerLines pl ∧
    (emit 0 "0.1" "7").length = 8 ∧
    (emit 0 "0.1" "7").countP (fun l => decide (l = "")) = 3 ∧
    (emit 0 "0.1" "7").countP (fun l => decide (l ≠ "")) = 5 :=
  ⟨rfl, by decide, by decide, by decide⟩

/-- C4: for every `k ≥ 0` the output's `add` directives (the structured view
`emitD`, which renders line-for-line to the emitted output) declare exactly
the node names `start`, `B`, `finish`, `N1 .. Nk`, in this order, and these
names are pairwise distinct, so each appears in exactly one `add` line. -/
theorem C4_add_names (k : Nat) (opf pl : String) :
    emit (k : Int) opf pl = (emitD (k : Int) opf pl).map renderDirective ∧
    (emitD (k : Int) opf pl).filterMap addName? = addNames k ∧
    (addNames k).Nodup :=
  ⟨emit_eq_renderD _ _ _,
   by rw [filterMap_addName_emitD, Int.toNat_natCast],
   addNames_nodup k⟩

/-- C5: for every `k ≥ 0`, every node name appearing as an endpoint of a
`connect` directive in the output (structured view `emitD`, which renders
line-for-line to the emitted output) is declared by an `add` directive that
occurs strictly earlier in the output, as verified by the sequential
checker `declCheck` starting from an empty declared set. -/
theorem C5_declared_before_use (k : Nat) (opf pl : String) :
    emit (k : Int) opf pl = (emitD (k : Int) opf pl).map renderDirective ∧
    declCheck [] (emitD (k : Int) opf pl) = true :=
  ⟨emit_eq_renderD _ _ _, declCheck_emitD _ _ _⟩

/-- C6: a negative `num_other_paths` yields the fixed header block followed
by an empty distractor section (zero loop iterations, as with Python's
`range` on a negative bound) and no error: the emitter is a total function
and performs no input validation. -/
theorem C6_negative_count (k : Int) (h : k < 0) (opf pl : String) :
    emit k opf pl = headerLines pl := by
  have h0 : k.toNat = 0 := Int.toNat_of_nonpos (le_of_lt h)
  simp [emit, h0]

/-- C6 witness: instantiating the negative-count theorem at `-1`. -/
theorem C6_negative_count_witness :
    (-1 : Int) < 0 ∧ emit (-1) "0.1" "7" = headerLines "7" :=
  ⟨by decide, C6_negative_count (-1) (by decide) "0.1" "7"⟩

/-- C7: the emitter is deterministic — two invocations with identical values
of the three parameters produce identical output; the output is a pure
function of `num_other_paths`, `other_path_fitness`, `path_length`. -/
theorem C7_deterministic (k₁ k₂ : Int) (o₁ o₂ p₁ p₂ : String)
    (hk : k₁ = k₂) (ho : o₁ = o₂) (hp : p₁ = p₂) :
    emit k₁ o₁ p₁ = emit k₂ o₂ p₂ := by
  rw [hk, ho, hp]

/-- C7 witness: instantiating determinism at the reference defaults. -/
theorem C7_deterministic_witness :
    (99 : Int) = 99 ∧ ("0.1" : String) = "0.1" ∧ ("7" : String) = "7" ∧
    emit 99 "0.1" "7" = emit 99 "0.1" "7" :=
  ⟨rfl, rfl, rfl, C7_deterministic 99 99 "0.1" "0.1" "7" "7" rfl rfl rfl⟩

/-- C8: for every integer `num_other_paths` the emitter runs to completion
in one pass, producing a finite output of exactly `8 + 3 * max k 0` lines;
it is total in all three parameters, so the process always exits
successfully. -/
theorem C8_total_output (k : Int) (opf pl : String) :
    (emit k opf pl).length = 8 + 3 * k.toNat :=
  emit_length k opf pl

/-- C9: for every `k ≥ 0` and any fixed parameter strings, the output for
`num_other_paths = k` is a prefix (as a sequence of lines) of the output for
`num_other_paths = k + 1`: increasing the distractor count only appends
lines and never changes earlier lines. -/
theorem C9_prefix_monotone (k : Nat) (opf pl : String) :
    emit (k : Int) opf pl <+: emit ((k : Int) + 1) opf pl :=
  emit_prefix k opf pl

/-- C10: the first eight output lines (the header block through the third
blank line) depend only on `path_length`: two runs agreeing on
`path_length` but with arbitrary `num_other_paths` and
`other_path_fitness` produce identical first eight lines. -/
theorem C10_header_depends_only_on_path_length (k₁ k₂ : Int) (o₁ o₂ p : String) :
    (emit k₁ o₁ p).take 8 = (emit k₂ o₂ p).take 8 := rfl
